import Mathlib

/-!
Verification of the node-stockfish engine wrapper (src/stockfish.ts).

The development shallowly embeds the `StockfishInstance` class: its
per-instance analysis state machine (reset / setBoardstate / startAnalysing /
stopAnalysing / the stdout data handler with its partial-line buffer /
processInfo / processNoLegalMoves / getCurrentBestLines) and the static
instance pool (usedInstances / idleInstances / getInstance / stopUsing /
terminate / the exit handler inside initialise).

JavaScript semantics that matter here and how they are modelled:
- a JS number that can be `NaN` is modelled as `JsNum := Option ℚ`
  (`none` = NaN); arithmetic and comparisons propagate `none` the way
  JS propagates NaN (every comparison with NaN is false);
- `Map` (insertion-ordered, SameValueZero keys) is an association list with
  in-place update (`mapSet`), so key order is preserved as in JS;
- a sparse JS array of analysis lines is a `List (Option StockfishLine)`;
  `arr[i] = v` with a non-negative integer `i` extends the array with holes
  (`none`) exactly as JS does, and a negative / non-integer / NaN index is
  an invisible named property, i.e. a no-op on the index structure;
- `Array.prototype.filter` skips holes, so the populated count is
  `countSome`;
- `String.prototype.indexOf/substring` and `Buffer.prototype.slice/
  lastIndexOf` keep their exact JS semantics including the `-1` sentinel,
  clamping and argument swapping (`jsIndexOfFrom`, `jsSubstring`,
  `bufSlice`);
- listener callbacks are not modelled as functions: each processing step
  returns the list of `StockfishAnalysis` snapshots broadcast to the
  `analysisListeners` registered listeners, in order;
- a thrown JS exception (there are reachable `TypeError`s in the completion
  check) is the `Bool` component of a step's result (`true` = the data
  handler raised); mutations performed before the throw are kept, as in JS.
-/

namespace NodeStockfish

/-! ## JS primitive semantics -/

/-- A JS number that may be NaN: `none` is NaN. -/
abbrev JsNum := Option ℚ

/-- JS unary minus on a number (NaN stays NaN); `score *= -1` is this. -/
def jsNeg : JsNum → JsNum := Option.map (fun q => -q)

/-- Exact division of a rational by 100, written with `mkRat` (the value is
`q.num / (q.den * 100)`, the same rational as `q / 100`; `mkRat` is used
throughout instead of `Rat.div`/`Rat.sub` because it is kernel-reducible). -/
def qDiv100 (q : ℚ) : ℚ := mkRat q.num (q.den * 100)

/-- JS division by 100 (NaN stays NaN). -/
def jsDiv100 : JsNum → JsNum := Option.map qDiv100

/-- Exact subtraction of rationals via `mkRat`: the value is
`(a.num * b.den - b.num * a.den) / (a.den * b.den)`, the same rational as
`a - b`. -/
def qSub (a b : ℚ) : ℚ :=
  mkRat (a.num * (b.den : ℤ) - b.num * (a.den : ℤ)) (a.den * b.den)

/-- JS `a - b` (NaN absorbs). -/
def jsSub : JsNum → JsNum → JsNum
  | some a, some b => some (qSub a b)
  | _, _ => none

/-- JS `a > b`; any comparison involving NaN is false. -/
def jsGt : JsNum → JsNum → Bool
  | some a, some b => decide (b < a)
  | _, _ => false

/-- Position of the first occurrence of `pat` in a character list. -/
def firstMatch (pat : List Char) : List Char → Option ℕ
  | [] => if pat = [] then some 0 else none
  | c :: cs =>
    if pat.isPrefixOf (c :: cs) then some 0
    else (firstMatch pat cs).map (· + 1)

/-- JS `s.indexOf(pat, from)`: `-1` when absent, `from` clamped below at 0. -/
def jsIndexOfFrom (s pat : String) (i : ℤ) : ℤ :=
  match firstMatch pat.data (s.data.drop i.toNat) with
  | some j => ((i.toNat + j : ℕ) : ℤ)
  | none => -1

/-- JS `s.indexOf(pat)`. -/
def jsIndexOf (s pat : String) : ℤ := jsIndexOfFrom s pat 0

/-- JS `s.includes(pat)`. -/
def jsContains (s pat : String) : Bool := decide (jsIndexOf s pat ≠ -1)

/-- JS `s.startsWith(pat)`. -/
def jsStartsWith (s pat : String) : Bool := pat.data.isPrefixOf s.data

/-- Index of the last occurrence of character `c`, counting from `i`. -/
def lastIdxAux (c : Char) : List Char → ℕ → Option ℕ
  | [], _ => none
  | x :: xs, i =>
    match lastIdxAux c xs (i + 1) with
    | some j => some j
    | none => if x = c then some i else none

/-- JS/Buffer `lastIndexOf` for a single character: `-1` when absent. -/
def jsLastIndexOfChar (s : String) (c : Char) : ℤ :=
  match lastIdxAux c s.data 0 with
  | some j => (j : ℤ)
  | none => -1

/-- JS `String.prototype.substring(a, b)`: clamps both arguments into
`[0, length]` and swaps them when `a > b`. -/
def jsSubstring (s : String) (a b : ℤ) : String :=
  let len : ℤ := s.length
  let na := (min (max a 0) len).toNat
  let nb := (min (max b 0) len).toNat
  ⟨(s.data.drop (min na nb)).take (max na nb - min na nb)⟩

/-- JS `String.prototype.substring(a)` (up to the end of the string). -/
def jsSubstringFrom (s : String) (a : ℤ) : String :=
  jsSubstring s a s.length

/-- Node `Buffer.prototype.slice(a, b)`: negative offsets count from the
end, both offsets are clamped into `[0, length]`, no swapping. -/
def bufSlice (s : String) (a b : ℤ) : String :=
  let len : ℤ := s.length
  let lo := (min (max (if a < 0 then len + a else a) 0) len).toNat
  let hi := (min (max (if b < 0 then len + b else b) 0) len).toNat
  ⟨(s.data.drop lo).take (hi - lo)⟩

/-- Split helper accumulating the current piece in reverse. -/
def splitCharAux (c : Char) : List Char → List Char → List String
  | [], acc => [⟨acc.reverse⟩]
  | x :: xs, acc =>
    if x = c then ⟨acc.reverse⟩ :: splitCharAux c xs []
    else splitCharAux c xs (x :: acc)

/-- JS `s.split(sep)` for a one-character separator
(`"".split(sep) = [""]`, adjacent separators give empty pieces). -/
def jsSplitChar (s : String) (c : Char) : List String :=
  splitCharAux c s.data []

/-- Whitespace characters relevant to the engine's line protocol
(the protocol is ASCII, so this is what JS `trim` removes here). -/
def isWs (c : Char) : Bool := c = ' ' || c = '\t' || c = '\n' || c = '\r'

/-- JS `s.trim()`. -/
def jsTrim (s : String) : String :=
  ⟨((s.data.dropWhile isWs).reverse.dropWhile isWs).reverse⟩

/-- Numeric value of a digit list, most significant first. -/
def natOfDigits (l : List Char) : ℕ :=
  l.foldl (fun n c => 10 * n + (c.toNat - 48)) 0

/-- Unsigned part of JS numeric coercion: `digits+ ('.' digits*)?` or
`'.' digits+`, whole input consumed; `none` is NaN. -/
def numAbs (l : List Char) : JsNum :=
  let intPart := l.takeWhile Char.isDigit
  let rest := l.dropWhile Char.isDigit
  match rest with
  | [] => if intPart = [] then none else some (natOfDigits intPart)
  | '.' :: frac =>
    if frac.all Char.isDigit ∧ (intPart ≠ [] ∨ frac ≠ []) then
      some (mkRat (natOfDigits intPart * 10 ^ frac.length + natOfDigits frac : ℕ)
        (10 ^ frac.length))
    else none
  | _ => none

/-- JS unary `+s` coercion of a string to a number (`none` is NaN).
The whitespace-trimmed empty string coerces to `0`; an optional single
sign precedes a decimal numeral.  (Hexadecimal / exponent / `Infinity`
forms, never produced by the engine's protocol fields, coerce to NaN
here.) -/
def jsToNum (s : String) : JsNum :=
  let t := ((s.data.dropWhile isWs).reverse.dropWhile isWs).reverse
  match t with
  | [] => some 0
  | '-' :: r => jsNeg (numAbs r)
  | '+' :: r => numAbs r
  | r => numAbs r

/-! ## Insertion-ordered maps (JS `Map`) and sparse arrays -/

/-- JS `Map.prototype.get` as an association-list lookup. -/
def mapLookup {α β : Type} [DecidableEq α] : List (α × β) → α → Option β
  | [], _ => none
  | (k, v) :: rest, a => if k = a then some v else mapLookup rest a

/-- JS `Map.prototype.set`: update in place, else append (insertion order). -/
def mapSet {α β : Type} [DecidableEq α] : List (α × β) → α → β → List (α × β)
  | [], a, b => [(a, b)]
  | (k, v) :: rest, a, b =>
    if k = a then (a, b) :: rest else (k, v) :: mapSet rest a b

/-- JS `Map.prototype.delete`. -/
def mapDelete {α β : Type} [DecidableEq α] (m : List (α × β)) (a : α) : List (α × β) :=
  m.filter (fun kv => kv.1 ≠ a)

/-- JS `Map.prototype.has`. -/
def mapHas {α β : Type} [DecidableEq α] (m : List (α × β)) (a : α) : Bool :=
  (mapLookup m a).isSome

/-- JS `arr[i] = v` on a sparse array: a non-negative integer index extends
the array with holes as needed; a negative, fractional or NaN index becomes
a named property, invisible to the index structure. -/
def jsArraySet {α : Type} (arr : List (Option α)) (idx : JsNum) (v : α) : List (Option α) :=
  match idx with
  | some q =>
    if 0 ≤ q ∧ q.den = 1 then
      (arr ++ List.replicate (q.num.toNat + 1 - arr.length) none).set q.num.toNat (some v)
    else arr
  | none => arr

/-- `arr.filter(x => x != null).length`: JS `filter` skips holes. -/
def countSome {α : Type} (arr : List (Option α)) : ℕ :=
  (arr.filter Option.isSome).length

/-! ## Data model (`src/stockfish.ts`) -/

/-- `StockfishScoreType`. -/
inductive ScoreType
  | exact
  | mate
  | lowerbound
  | upperbound
deriving DecidableEq

/-- `StockfishScore`: a magnitude and a kind. -/
structure StockfishScore where
  score : JsNum
  type : ScoreType
deriving DecidableEq

/-- `StockfishLine`: one score plus the move tokens of the line. -/
structure StockfishLine where
  score : StockfishScore
  moves : List String
deriving DecidableEq

/-- `StockfishAnalysis`, the snapshot delivered to listeners and returned by
`getCurrentBestLines`.  `lines = none` models the JS `undefined` that
`bestLines.get` produces for an absent depth; `noLegalMoves = false` models
the absent flag. -/
structure StockfishAnalysis where
  depth : JsNum
  lines : Option (List (Option StockfishLine))
  noLegalMoves : Bool
deriving DecidableEq

/-- `StockfishAnalysisOptions` (the `lines` field is optional). -/
structure StockfishAnalysisOptions where
  lines : Option ℚ
deriving DecidableEq

/-- `state` field of an instance. -/
inductive EngineState
  | ready
  | stopping
  | terminated
deriving DecidableEq

/-- `turn` field of an instance. -/
inductive Turn
  | white
  | black
deriving DecidableEq

/-- The mutable fields of one `StockfishInstance`.  `turn`,
`currentAnalysisOptions` and `analysisOptions` start out JS-`undefined`,
modelled as `none`; `analysisListeners` is the number of registered
listener callbacks. -/
structure InstanceState where
  id : ℕ
  bestLines : List (JsNum × List (Option StockfishLine))
  currentDepth : ℚ
  analysisListeners : ℕ
  state : EngineState
  hasStarted : Bool
  turn : Option Turn
  currentAnalysisOptions : Option StockfishAnalysisOptions
  analysisOptions : Option StockfishAnalysisOptions
  stockfishOutputBuffer : String
deriving DecidableEq

/-! ## Protocol line parsing (`processInfo`, lines 776-851)

`parseInfoLine` is the pure front half of `processInfo`: the mandatory-field
check, the index-arithmetic field extraction, the score-type dispatch, and
the move-token split.  The back half (storing the line and the completion
check) is `addInfoLine` below; `processInfo` composes them. -/

/-- Result of decoding one info line. -/
inductive InfoParse
  | missingField
  | unknownScoreType
  | ok (depth rank : JsNum) (score : StockfishScore) (moves : List String)
deriving DecidableEq

/-- Field extraction and score decoding of `processInfo` (lines 778-851),
with the exact `indexOf`/`substring` arithmetic of the source. -/
def parseInfoLine (line : String) : InfoParse :=
  if jsIndexOf line " score " = -1 ∨ jsIndexOf line " depth " = -1
      ∨ jsIndexOf line " multipv " = -1 then
    .missingField
  else
    let depthIndexBegin := jsIndexOf line " depth " + 7
    let depthIndexEnd := jsIndexOfFrom line " " depthIndexBegin
    let depth := jsToNum (jsSubstring line depthIndexBegin depthIndexEnd)
    let lineNumberIndexBegin := jsIndexOf line " multipv " + 9
    let lineNumberIndexEnd := jsIndexOfFrom line " " lineNumberIndexBegin
    let lineNumber := jsToNum (jsSubstring line lineNumberIndexBegin lineNumberIndexEnd)
    let scoreTypeIndexBegin := jsIndexOf line " score " + 7
    let scoreTypeIndexEnd := jsIndexOfFrom line " " scoreTypeIndexBegin
    let scoreType := jsSubstring line scoreTypeIndexBegin scoreTypeIndexEnd
    let scoreIndexBegin := scoreTypeIndexEnd + 1
    let scoreIndexEnd := jsIndexOfFrom line " " scoreIndexBegin
    let raw := jsToNum (jsSubstring line scoreIndexBegin scoreIndexEnd)
    let movesIndexBegin := jsIndexOf line " pv " + 4
    let moves := jsSplitChar (jsSubstringFrom line movesIndexBegin) ' '
    if scoreType = "cp" then .ok depth lineNumber ⟨jsDiv100 raw, .exact⟩ moves
    else if scoreType = "mate" then .ok depth lineNumber ⟨raw, .mate⟩ moves
    else if scoreType = "lowerbound" then .ok depth lineNumber ⟨jsDiv100 raw, .lowerbound⟩ moves
    else if scoreType = "upperbound" then .ok depth lineNumber ⟨jsDiv100 raw, .upperbound⟩ moves
    else .unknownScoreType

/-- Perspective normalization (lines 841-846): negate the score when the
cached turn is black. -/
def applyTurn (turn : Option Turn) (sc : StockfishScore) : StockfishScore :=
  if turn = some Turn.black then ⟨jsNeg sc.score, sc.type⟩ else sc

/-! ## Depth aggregation (`processInfo` back half, lines 853-889) -/

/-- `this.bestLines.get(depth)` after the `has`-guarded `set(depth, [])`. -/
def ensureArr (st : InstanceState) (depth : JsNum) : List (Option StockfishLine) :=
  (mapLookup st.bestLines depth).getD []

/-- The `depth > this.currentDepth` guarded update (lines 886-889): a NaN
depth never advances. -/
def advanceDepth (st : InstanceState) : JsNum → InstanceState
  | some d => if st.currentDepth < d then { st with currentDepth := d } else st
  | none => st

/-- Completion: notify every listener with `{depth, lines}` (lines 873-882)
and advance `currentDepth` if the new depth is larger. -/
def completeDepth (st : InstanceState) (depth : JsNum)
    (arr : List (Option StockfishLine)) :
    InstanceState × List StockfishAnalysis × Bool :=
  (advanceDepth st depth, [⟨depth, some arr, false⟩], false)

/-- The completion test (lines 864-889), evaluated on the state in which the
new line is already stored.  `analysisComplete` is
`numLines == this.analysisOptions.lines || depth > 1 && numLines ==
this.bestLines.get(1).length` with JS short-circuiting; reading `.lines` of
an undefined `analysisOptions`, or `.length` of an undefined
`bestLines.get(1)`, throws a `TypeError` (third component `true`). -/
def checkComplete (st : InstanceState) (depth : JsNum)
    (arr : List (Option StockfishLine)) :
    InstanceState × List StockfishAnalysis × Bool :=
  match st.analysisOptions with
  | none => (st, [], true)
  | some opts =>
    if opts.lines = some ((countSome arr : ℕ) : ℚ) then completeDepth st depth arr
    else if jsGt depth (some 1) then
      match mapLookup st.bestLines (some 1) with
      | none => (st, [], true)
      | some arr1 =>
        if countSome arr = arr1.length then completeDepth st depth arr
        else (st, [], false)
    else (st, [], false)

/-- Store the decoded line at `bestLines[depth][rank - 1]` (lines 853-862)
and run the completion check. -/
def addInfoLine (st : InstanceState) (depth rank : JsNum) (l : StockfishLine) :
    InstanceState × List StockfishAnalysis × Bool :=
  checkComplete
    { st with bestLines := (mapSet st.bestLines depth (jsArraySet (ensureArr st depth) (jsSub rank (some 1)) l)) }
    depth
    (jsArraySet (ensureArr st depth) (jsSub rank (some 1)) l)

/-- `processInfo` (lines 776-890): decode, normalize perspective, store,
check completion.  A line missing one of the three mandatory fields or
carrying an unknown score type is discarded without touching any state. -/
def processInfo (st : InstanceState) (line : String) :
    InstanceState × List StockfishAnalysis × Bool :=
  match parseInfoLine line with
  | .missingField => (st, [], false)
  | .unknownScoreType => (st, [], false)
  | .ok depth rank sc moves => addInfoLine st depth rank ⟨applyTurn st.turn sc, moves⟩

/-- `processNoLegalMoves` (lines 895-905): notify every listener with
`{depth: 0, lines: [], noLegalMoves: true}`. -/
def processNoLegalMoves (st : InstanceState) :
    InstanceState × List StockfishAnalysis × Bool :=
  (st, [⟨some 0, some [], true⟩], false)

/-! ## Chunk processing (`process`, lines 712-771, and the stdout data
handler, lines 545-573) -/

/-- The body of the `for` loop of `process` after the `bestmove` state
transition has been applied. -/
def processLineGated (st : InstanceState) (line : String) :
    InstanceState × List StockfishAnalysis × Bool :=
  if st.state ≠ EngineState.ready then (st, [], false)
  else if jsStartsWith line "info" then
    if jsContains line "pv" then processInfo st line
    else if jsContains line "mate 0" || jsContains line "cp 0" then
      processNoLegalMoves st
    else (st, [], false)
  else (st, [], false)

/-- One iteration of the `for` loop of `process` (lines 718-770): a
`bestmove` line flips the state back to ready; everything else is gated on
the state being ready, then classified (info-with-pv, terminal,
known-ignorable, unrecognized). -/
def processLine (st : InstanceState) (line : String) :
    InstanceState × List StockfishAnalysis × Bool :=
  processLineGated
    (if jsStartsWith line "bestmove" then { st with state := EngineState.ready } else st)
    line

/-- The `for` loop of `process`: a thrown exception aborts the remaining
iterations (it propagates out of the data handler). -/
def processLines : InstanceState → List String → InstanceState × List StockfishAnalysis × Bool
  | st, [] => (st, [], false)
  | st, l :: ls =>
    match processLine st l with
    | (st1, evs1, true) => (st1, evs1, true)
    | (st1, evs1, false) =>
      match processLines st1 ls with
      | (st2, evs2, r) => (st2, evs1 ++ evs2, r)

/-- `process` (lines 712-771): split the chunk at newlines and drop
empty/whitespace-only lines. -/
def processChunk (st : InstanceState) (chunk : String) :
    InstanceState × List StockfishAnalysis × Bool :=
  processLines st ((jsSplitChar chunk '\n').filter (fun l => 0 < (jsTrim l).length))

/-- The new `stockfishOutputBuffer` after a data event (lines 556-568):
the remainder after the last newline of the combined buffer, empty if the
buffer ends with a newline. -/
def newBuffer (buf : String) : String :=
  if jsLastIndexOfChar buf '\n' ≠ (buf.length : ℤ) - 1 then
    bufSlice buf (jsLastIndexOfChar buf '\n' + 1) (buf.length : ℤ)
  else ""

/-- The part of the combined buffer handed to `process` (line 572):
`chunk.slice(0, lastNewline)`.  Note that when the buffer holds no newline
`lastNewline` is `-1` and `Buffer.slice(0, -1)` is everything but the last
byte. -/
def readyPart (buf : String) : String :=
  bufSlice buf 0 (jsLastIndexOfChar buf '\n')

/-- The stdout data handler (lines 545-573): prepend the carried buffer,
store the new remainder, process the rest. -/
def handleStdoutData (st : InstanceState) (chunk : String) :
    InstanceState × List StockfishAnalysis × Bool :=
  processChunk
    { st with stockfishOutputBuffer := newBuffer (st.stockfishOutputBuffer ++ chunk) }
    (readyPart (st.stockfishOutputBuffer ++ chunk))

/-! ## Session lifecycle (lines 602-707, 907-937) -/

/-- `reset` (lines 605-610). -/
def resetInstance (st : InstanceState) : InstanceState :=
  { st with bestLines := [], currentDepth := 0, analysisListeners := 0 }

/-- `setBoardstateByFen` (lines 615-619): cache the side to move from the
second space-separated FEN field (anything other than `"w"`, including a
missing field, yields black). -/
def setBoardstateByFen (st : InstanceState) (fen : String) : InstanceState :=
  { st with turn := some (if (jsSplitChar fen ' ').get? 1 = some "w"
      then Turn.white else Turn.black) }

/-- `setBoardstateByMoves` (lines 625-629): odd move count means black. -/
def setBoardstateByMoves (st : InstanceState) (moves : String) : InstanceState :=
  { st with turn := some (if (jsSplitChar moves ' ').length % 2 = 1
      then Turn.black else Turn.white) }

/-- The `options.lines == null` defaulting of `startAnalysing`
(lines 645-648). -/
def defaultOptions (o : StockfishAnalysisOptions) : StockfishAnalysisOptions :=
  ⟨if o.lines = none then some 1 else o.lines⟩

/-- `startAnalysing` (lines 634-656).  The source stores the same `options`
object in `currentAnalysisOptions` and, after defaulting `options.lines`
in place, in `analysisOptions`; since the object is shared, both fields end
up holding the defaulted options. -/
def startAnalysing (st : InstanceState) (options : StockfishAnalysisOptions) : InstanceState :=
  { resetInstance
      { st with currentAnalysisOptions := some (defaultOptions options), hasStarted := true }
    with analysisOptions := some (defaultOptions options) }

/-- The guard and state transition of `stopAnalysing` (lines 669-681). -/
def stopAnalysingGuard (st : InstanceState) : InstanceState :=
  if st.hasStarted then { st with state := EngineState.stopping } else st

/-- `stopAnalysing` (lines 661-681): clear `currentAnalysisOptions`
unconditionally, then either return early (never started) or send stop and
enter the stopping state. -/
def stopAnalysing (st : InstanceState) : InstanceState :=
  stopAnalysingGuard { st with currentAnalysisOptions := none }

/-- `onAnalysisData` (lines 923-926): register one more listener. -/
def onAnalysisData (st : InstanceState) : InstanceState :=
  { st with analysisListeners := st.analysisListeners + 1 }

/-- `getCurrentBestLines` (lines 910-916): `lines` is the raw
`bestLines.get(currentDepth)`, which is `undefined` (`none`) when no depth
has completed. -/
def getCurrentBestLines (st : InstanceState) : StockfishAnalysis :=
  ⟨some st.currentDepth, mapLookup st.bestLines (some st.currentDepth), false⟩

/-! ## Instance pool (static members, lines 434-471, 518-600, 686-707,
931-937)

Instances are heap objects: both static maps may refer to the same object
under possibly different keys (they are keyed by the `id` the object had
when it was inserted, which `initialise` can later change).  The heap is
`objs`, keyed by an object reference; `used` and `idle` map id keys to
object references.  Fresh ids (random 16-byte hex strings in the source)
are modelled by the counter `nextId`. -/

/-- The static pool state. -/
structure PoolState where
  objs : List (ℕ × InstanceState)
  used : List (ℕ × ℕ)
  idle : List (ℕ × ℕ)
  nextId : ℕ
deriving DecidableEq

/-- `MAX_IDLE_INSTANCES` (line 439). -/
def MAX_IDLE_INSTANCES : ℕ := 4

/-- Field values of an object before `initialise` runs; `hasStarted`'s
`false` is the source's field initializer (line 499), the others are the
JS-`undefined` defaults that `initialise` immediately overwrites. -/
def blankInstance : InstanceState :=
  ⟨0, [], 0, 0, EngineState.ready, false, none, none, none, ""⟩

/-- Dereference an object. -/
def getObj (p : PoolState) (r : ℕ) : InstanceState :=
  (mapLookup p.objs r).getD blankInstance

/-- `initialise` (lines 526-600) on the object `r`: draw a fresh id, reset
the analysis data, self-register into `idleInstances` under the new id,
clear the output buffer, enter the ready state.  (Process spawning and the
UCI handshake writes have no state effect.) -/
def initialiseObj (p : PoolState) (r : ℕ) : PoolState :=
  { p with
    objs := mapSet p.objs r
      { resetInstance { getObj p r with id := p.nextId } with
        stockfishOutputBuffer := "", state := EngineState.ready },
    idle := mapSet p.idle p.nextId r,
    nextId := p.nextId + 1 }

/-- The constructor (lines 518-521): allocate a fresh object and run
`initialise`. -/
def newInstance (p : PoolState) : PoolState × ℕ :=
  (initialiseObj { p with objs := p.objs ++ [(p.objs.length, blankInstance)] } p.objs.length,
    p.objs.length)

/-- `StockfishInstance.getInstance` (lines 444-471): reuse the first idle
instance (delete it from `idle` under its current id, add it to `used`),
or construct a new one and add it to `used`. -/
def getInstancePool (p : PoolState) : PoolState × ℕ :=
  match p.idle with
  | (_, r) :: _ =>
    ({ p with
        idle := mapDelete p.idle (getObj p r).id,
        used := mapSet p.used (getObj p r).id r }, r)
  | [] =>
    match newInstance p with
    | (p2, r) => ({ p2 with used := mapSet p2.used (getObj p2 r).id r }, r)

/-- `terminate` (lines 931-937): remove the instance from both maps under
its current id, mark it terminated, kill the process. -/
def terminatePool (p : PoolState) (r : ℕ) : PoolState :=
  { p with
    used := mapDelete p.used (getObj p r).id,
    idle := mapDelete p.idle (getObj p r).id,
    objs := mapSet p.objs r { getObj p r with state := EngineState.terminated } }

/-- `stopUsing` (lines 686-707): release the instance; discard it when the
idle map is already at capacity, otherwise mark it idle. -/
def stopUsingPool (p : PoolState) (r : ℕ) : PoolState :=
  let p2 : PoolState := { p with used := mapDelete p.used (getObj p r).id }
  if p2.idle.length = MAX_IDLE_INSTANCES then terminatePool p2 r
  else { p2 with idle := mapSet p2.idle (getObj p2 r).id r }

/-- The `exit` handler installed by `initialise` (lines 577-593): ignore
exits of terminated instances; otherwise re-run `initialise` and, if a
current analysis configuration is still recorded, replay `startAnalysing`
with it. -/
def onExitPool (p : PoolState) (r : ℕ) : PoolState :=
  if (getObj p r).state = EngineState.terminated then p
  else
    match (getObj (initialiseObj p r) r).currentAnalysisOptions with
    | some o =>
      { initialiseObj p r with
        objs := mapSet (initialiseObj p r).objs r
          (startAnalysing (getObj (initialiseObj p r) r) o) }
    | none => initialiseObj p r

/-! ## Concrete states used by the theorems -/

/-- A pool with no instances at all. -/
def emptyPool : PoolState := ⟨[], [], [], 0⟩

/-- A freshly constructed and initialised instance, as produced by the
constructor, considered in isolation from the pool. -/
def newEngineInstance : InstanceState :=
  ⟨0, [], 0, 0, EngineState.ready, false, none, none, none, ""⟩

/-- A ready instance mid-session: one registered listener, a started
single-line analysis, empty partial-line buffer, no cached turn. -/
def readyState : InstanceState :=
  ⟨0, [], 0, 1, EngineState.ready, true, none, some ⟨some 1⟩, some ⟨some 1⟩, ""⟩

/-- An in-use instance mid-session (id 7, ready, recorded two-line analysis
configuration), for the crash-restart scenario. -/
def c2Instance : InstanceState :=
  ⟨7, [], 0, 0, EngineState.ready, true, some Turn.white, some ⟨some 2⟩, some ⟨some 2⟩, ""⟩

/-- A pool holding `c2Instance` in `usedInstances` under its id 7. -/
def c2Pool : PoolState := ⟨[(0, c2Instance)], [(7, 0)], [], 8⟩

/-- A ready instance with a started three-line analysis
(`requestedLineCount = 3`) and one listener. -/
def threeLineState : InstanceState :=
  ⟨0, [], 0, 1, EngineState.ready, true, some Turn.white, some ⟨some 3⟩, some ⟨some 3⟩, ""⟩

/-- `threeLineState` after an info line populating only rank 2 at depth 1:
the depth-1 array is `[hole, line]` (length 2, populated count 1). -/
def c4Sparse1 : InstanceState :=
  (processInfo threeLineState "info depth 1 multipv 2 score cp 10 pv a7a6").1

/-- `c4Sparse1` after rank 1 of depth 5 arrived. -/
def c4Sparse2 : InstanceState :=
  (processInfo c4Sparse1 "info depth 5 multipv 1 score cp 20 pv b7b6").1

/-- The depth-5 rank-2 line completing the counterexample run. -/
def c4Line3 : String := "info depth 5 multipv 2 score cp 30 pv c7c6"

/-- `threeLineState` after depth-1 ranks 1 and 2 and depth-5 rank 1
arrived (the spec's completion tie-break scenario: the engine only ever
reports two ranks). -/
def c4Tie3 : InstanceState :=
  (processInfo
    (processInfo
      (processInfo threeLineState "info depth 1 multipv 1 score cp 10 pv a2a3").1
      "info depth 1 multipv 2 score cp 15 pv a7a6").1
    "info depth 5 multipv 1 score cp 20 pv b2b3").1

/-- A FEN position in which black (the second player) is to move. -/
def blackFen : String := "rnbqkbnr/pppppppp/8/8/8/8/PPPPPPPP/RNBQKBNR b KQkq - 0 1"

/-- An info line reporting a raw engine score of +50 centipawns. -/
def cp50Line : String := "info depth 3 multipv 1 score cp 50 pv e7e5"

/-- The protocol line used for the chunk-splitting scenario, without its
terminating newline. -/
def c3Body : String := "info depth 3 multipv 1 score cp 50 pv e2e4"

/-- The malformed / unknown line classes of the discard paths: an info line
carrying a pv marker but missing one of the three mandatory fields or
carrying an unknown score-type token; an info line without pv marker and
without terminal marker (known-ignorable or unrecognized); or a line that
is neither an info line nor the `bestmove` sentinel. -/
def malformedOrUnknown (line : String) : Prop :=
  jsStartsWith line "bestmove" = false ∧
    ((jsStartsWith line "info" = true ∧ jsContains line "pv" = true ∧
        (parseInfoLine line = InfoParse.missingField ∨
          parseInfoLine line = InfoParse.unknownScoreType)) ∨
      (jsStartsWith line "info" = true ∧ jsContains line "pv" = false ∧
        jsContains line "mate 0" = false ∧ jsContains line "cp 0" = false) ∨
      jsStartsWith line "info" = false)

instance (line : String) : Decidable (malformedOrUnknown line) := by
  unfold malformedOrUnknown; infer_instance

/-- The populated array stored at a given depth key (empty when absent). -/
def arrAt (st : InstanceState) (d : JsNum) : List (Option StockfishLine) :=
  (mapLookup st.bestLines d).getD []

/-- The exact snapshot `processNoLegalMoves` broadcasts. -/
def noMovesEvent : StockfishAnalysis := ⟨some 0, some [], true⟩

/-! ## Helper lemmas -/

theorem mapLookup_mapSet_self {α β : Type} [DecidableEq α] (m : List (α × β)) (k : α) (v : β) :
    mapLookup (mapSet m k v) k = some v := by
  induction m with
  | nil => simp [mapSet, mapLookup]
  | cons kv rest ih =>
    by_cases h : kv.1 = k
    · cases kv; simp_all [mapSet, mapLookup]
    · cases kv; simp_all [mapSet, mapLookup]

theorem advanceDepth_bestLines (st : InstanceState) (d : JsNum) :
    (advanceDepth st d).bestLines = st.bestLines := by
  unfold advanceDepth
  split
  · split <;> rfl
  · rfl

theorem advanceDepth_mono (st : InstanceState) (d : JsNum) :
    st.currentDepth ≤ (advanceDepth st d).currentDepth := by
  unfold advanceDepth
  split
  · split
    · exact le_of_lt (by assumption)
    · exact le_refl _
  · exact le_refl _

theorem checkComplete_bestLines (st : InstanceState) (d : JsNum)
    (a : List (Option StockfishLine)) :
    (checkComplete st d a).1.bestLines = st.bestLines := by
  unfold checkComplete completeDepth
  split
  · rfl
  · split
    · exact advanceDepth_bestLines st d
    · split
      · split
        · rfl
        · split
          · exact advanceDepth_bestLines st d
          · rfl
      · rfl

theorem checkComplete_mono (st : InstanceState) (d : JsNum)
    (a : List (Option StockfishLine)) :
    st.currentDepth ≤ (checkComplete st d a).1.currentDepth ∧
      ((checkComplete st d a).1.currentDepth ≠ st.currentDepth →
        (checkComplete st d a).2.1 ≠ []) := by
  unfold checkComplete completeDepth
  split
  · exact ⟨le_refl _, fun h => absurd rfl h⟩
  · split
    · exact ⟨advanceDepth_mono st d, fun _ => by simp⟩
    · split
      · split
        · exact ⟨le_refl _, fun h => absurd rfl h⟩
        · split
          · exact ⟨advanceDepth_mono st d, fun _ => by simp⟩
          · exact ⟨le_refl _, fun h => absurd rfl h⟩
      · exact ⟨le_refl _, fun h => absurd rfl h⟩

theorem checkComplete_events (st : InstanceState) (d : JsNum)
    (a : List (Option StockfishLine)) :
    (checkComplete st d a).2.1 = [] ∨
      (checkComplete st d a).2.1 = [⟨d, some a, false⟩] := by
  unfold checkComplete completeDepth
  split
  · exact Or.inl rfl
  · split
    · exact Or.inr rfl
    · split
      · split
        · exact Or.inl rfl
        · split
          · exact Or.inr rfl
          · exact Or.inl rfl
      · exact Or.inl rfl

theorem processInfo_events (st : InstanceState) (line : String) :
    (processInfo st line).2.1 = [] ∨
      ∃ d a, (processInfo st line).2.1 = [⟨d, some a, false⟩] := by
  unfold processInfo
  cases hp : parseInfoLine line with
  | missingField => exact Or.inl rfl
  | unknownScoreType => exact Or.inl rfl
  | ok d r sc mv =>
    unfold addInfoLine
    rcases checkComplete_events _ d _ with h | h
    · exact Or.inl h
    · exact Or.inr ⟨d, _, h⟩

theorem processInfo_mono (st : InstanceState) (line : String) :
    st.currentDepth ≤ (processInfo st line).1.currentDepth ∧
      ((processInfo st line).1.currentDepth ≠ st.currentDepth →
        (processInfo st line).2.1 ≠ []) := by
  unfold processInfo
  cases hp : parseInfoLine line with
  | missingField => exact ⟨le_refl _, fun h => absurd rfl h⟩
  | unknownScoreType => exact ⟨le_refl _, fun h => absurd rfl h⟩
  | ok d r sc mv =>
    unfold addInfoLine
    exact checkComplete_mono _ d _

theorem processLine_mono (st : InstanceState) (line : String) :
    st.currentDepth ≤ (processLine st line).1.currentDepth ∧
      ((processLine st line).1.currentDepth ≠ st.currentDepth →
        (processLine st line).2.1 ≠ []) := by
  unfold processLine processLineGated
  split
  · split
    · exact ⟨le_refl _, fun h => absurd rfl h⟩
    · split
      · split
        · exact processInfo_mono _ line
        · split
          · exact ⟨le_refl _, fun h => absurd rfl h⟩
          · exact ⟨le_refl _, fun h => absurd rfl h⟩
      · exact ⟨le_refl _, fun h => absurd rfl h⟩
  · split
    · exact ⟨le_refl _, fun h => absurd rfl h⟩
    · split
      · split
        · exact processInfo_mono _ line
        · split
          · exact ⟨le_refl _, fun h => absurd rfl h⟩
          · exact ⟨le_refl _, fun h => absurd rfl h⟩
      · exact ⟨le_refl _, fun h => absurd rfl h⟩

theorem processLines_mono (ls : List String) :
    ∀ st : InstanceState, st.currentDepth ≤ (processLines st ls).1.currentDepth := by
  induction ls with
  | nil => intro st; exact le_refl _
  | cons l ls ih =>
    intro st
    have h1 := (processLine_mono st l).1
    unfold processLines
    rcases hpl : processLine st l with ⟨st1, evs1, b⟩
    rw [hpl] at h1
    cases b with
    | true => simpa using h1
    | false =>
      have h2 := ih st1
      dsimp only
      rcases hpls : processLines st1 ls with ⟨st2, evs2, r⟩
      rw [hpls] at h2
      simpa using le_trans h1 h2

theorem info_bestmove_disjoint (line : String) :
    jsStartsWith line "bestmove" = true → jsStartsWith line "info" = true → False := by
  unfold jsStartsWith
  have h1 : "bestmove".data = 'b' :: "estmove".data := rfl
  have h2 : "info".data = 'i' :: "nfo".data := rfl
  rw [h1, h2]
  cases line.data with
  | nil => simp [List.isPrefixOf]
  | cons c cs =>
    simp only [List.isPrefixOf, Bool.and_eq_true, beq_iff_eq]
    rintro ⟨rfl, _⟩ ⟨h, _⟩
    exact absurd h (by decide)

theorem state_ready_eta (st : InstanceState) (h : st.state = EngineState.ready) :
    ({ st with state := EngineState.ready } : InstanceState) = st := by
  cases st
  simp_all

/-- The completion test of `checkComplete`, characterized: when the
analysis options carry a requested count `L` and the depth is the number
`dv`, listeners fire exactly when the populated count of the freshly stored
array equals `L`, or `dv > 1` and it equals the length of the depth-1
array. -/
theorem checkComplete_ev_iff (st : InstanceState) (dv : ℚ)
    (a : List (Option StockfishLine)) (opts : StockfishAnalysisOptions) (L : ℚ)
    (ho : st.analysisOptions = some opts) (hL : opts.lines = some L) :
    ((checkComplete st (some dv) a).2.1 ≠ [] ↔
      (L = (countSome a : ℚ) ∨
        (1 < dv ∧ (mapLookup st.bestLines (some 1)).map List.length =
          some (countSome a)))) := by
  unfold checkComplete
  rw [ho]
  dsimp only
  by_cases h1 : opts.lines = some ((countSome a : ℕ) : ℚ)
  · rw [if_pos h1]
    have hLc : L = (countSome a : ℚ) := by
      rw [hL] at h1
      exact Option.some.inj h1
    simp [completeDepth, hLc]
  · rw [if_neg h1]
    have hne : ¬ L = (countSome a : ℚ) := by
      intro h
      exact h1 (by rw [hL, h])
    have hgt : jsGt (some dv) (some 1) = decide (1 < dv) := rfl
    by_cases hdv : 1 < dv
    · rw [hgt, decide_eq_true hdv, if_pos rfl]
      cases hm : mapLookup st.bestLines (some 1) with
      | none => simp [hne, hdv]
      | some arr1 =>
        dsimp only
        by_cases h2 : countSome a = arr1.length
        · rw [if_pos h2]
          simp [completeDepth, hne, hdv, h2]
        · rw [if_neg h2]
          constructor
          · intro h; exact absurd rfl h
          · rintro (h | ⟨_, h⟩)
            · exact absurd h hne
            · exact absurd (Option.some.inj h).symm h2
    · rw [hgt]
      have : decide (1 < dv) = false := decide_eq_false hdv
      rw [this]
      simp [hne, hdv]

/-! ## Claim theorems -/

/-- C1: refuted by the code — `getInstance()` on an empty pool constructs a
new instance, whose constructor self-registers it into `idleInstances`, and
then adds it to `usedInstances` without deleting the idle entry (lines
462-470 perform no `idleInstances.delete`, unlike the reuse branch at lines
456-457).  The fresh id (0) is therefore in both maps at once, contradicting
the claimed disjointness and the claimed "moved to used, no longer idle". -/
theorem c1_new_instance_in_both_maps :
    mapLookup (getInstancePool emptyPool).1.idle 0 = some 0 ∧
      mapLookup (getInstancePool emptyPool).1.used 0 = some 0 ∧
      (getObj (getInstancePool emptyPool).1 0).state = EngineState.ready := by
  decide

/-- C2: refuted by the code — when the process of the in-use, ready
instance with id 7 exits unexpectedly, the exit handler re-runs
`initialise()`, which draws a fresh id (8) and self-registers the instance
into `idleInstances` under the new id, while the stale `usedInstances`
entry keeps the old id 7.  The instance does not keep its identifier and
its id does not stay in the same pool map.  The replay half of the claim
does happen: `startAnalysing` is re-run with the recorded configuration
(the analysis options are set again after the restart). -/
theorem c2_restart_changes_id_and_pool_membership :
    (getObj (onExitPool c2Pool 0) 0).id = 8 ∧
      mapLookup (onExitPool c2Pool 0).used 7 = some 0 ∧
      mapLookup (onExitPool c2Pool 0).idle 8 = some 0 ∧
      mapLookup (onExitPool c2Pool 0).used 8 = none ∧
      mapLookup (onExitPool c2Pool 0).idle 7 = none ∧
      (getObj (onExitPool c2Pool 0) 0).analysisOptions = some ⟨some 2⟩ ∧
      (getObj (onExitPool c2Pool 0) 0).hasStarted = true := by
  decide

/-- C3: refuted by the code — delivering the single valid line
`"info depth 3 multipv 1 score cp 50 pv e2e4\n"` in one chunk fires exactly
one completion notification (with moves `["e2e4"]`), but splitting it into
the chunk without the newline followed by the chunk `"\n"` fires two: when
a chunk contains no newline, `lastIndexOf` is `-1` and line 572 processes
`chunk.slice(0, -1)` — the partial line minus its last byte — as a complete
line, emitting a spurious notification with truncated moves `["e2e"]`. -/
theorem c3_split_chunk_extra_notification :
    (handleStdoutData readyState (c3Body ++ "\n")).2.1 =
        [⟨some 3, some [some ⟨⟨some (mkRat 1 2), ScoreType.exact⟩, ["e2e4"]⟩], false⟩] ∧
      (handleStdoutData readyState c3Body).2.1 =
        [⟨some 3, some [some ⟨⟨some (mkRat 1 2), ScoreType.exact⟩, ["e2e"]⟩], false⟩] ∧
      (handleStdoutData (handleStdoutData readyState c3Body).1 "\n").2.1 =
        [⟨some 3, some [some ⟨⟨some (mkRat 1 2), ScoreType.exact⟩, ["e2e4"]⟩], false⟩] := by
  decide

/-- C4, counterexample to the claim as stated: with `requestedLineCount =
3` and depth 1 holding only rank 2 (populated count 1, array length 2),
the depth-5 rank-2 line fires a completion (and advances `currentDepth` to
5) although the populated count at depth 5 is 2, which equals neither the
requested 3 nor the populated count 1 recorded at depth 1: the code
compares against the length of the depth-1 array, not its populated
count. -/
theorem c4_counterexample :
    (processInfo c4Sparse2 c4Line3).2.1 ≠ [] ∧
      (processInfo c4Sparse2 c4Line3).1.currentDepth = 5 ∧
      c4Sparse2.analysisOptions = some ⟨some 3⟩ ∧
      countSome (arrAt c4Sparse2 (some 1)) = 1 ∧
      (arrAt c4Sparse2 (some 1)).length = 2 ∧
      countSome (arrAt (processInfo c4Sparse2 c4Line3).1 (some 5)) = 2 := by
  decide

/-- C6, counterexample to the claim as stated: routing to the no-legal-moves
path does not coincide with "a zero-magnitude score combined with a
mate-in-zero marker" under any reading.  The checkmate line
`"info depth 0 score mate 0"` is routed although it has no `cp 0` (refuting
the conjunctive reading), the stalemate line `"info depth 0 score cp 0"` is
routed although it has no `mate 0` (refuting the mate-only reading), and
the zero-score line `"info depth 10 multipv 1 score cp 0 pv e2e4"` is not
routed — it carries a pv marker and feeds the depth ladder instead
(refuting the disjunctive reading: the pv-absence condition of line 738 is
part of the actual routing test). -/
theorem c6_counterexample :
    (processLine readyState "info depth 0 score mate 0").2.1 = [noMovesEvent] ∧
      jsContains "info depth 0 score mate 0" "cp 0" = false ∧
      (processLine readyState "info depth 0 score cp 0").2.1 = [noMovesEvent] ∧
      jsContains "info depth 0 score cp 0" "mate 0" = false ∧
      (processLine readyState "info depth 10 multipv 1 score cp 0 pv e2e4").2.1 ≠ [noMovesEvent] ∧
      jsContains "info depth 10 multipv 1 score cp 0 pv e2e4" "cp 0" = true := by
  decide

/-- C7, counterexample to the claim as stated: after a start followed by an
explicit stop, `hasStarted` is still `true` — `stopAnalysing` (lines
661-681) never clears it; no code path resets it to `false`. -/
theorem c7_counterexample :
    (stopAnalysing (startAnalysing newEngineInstance ⟨none⟩)).hasStarted = true := by
  decide

/-- C4, amended: for every processed info line whose depth decodes to the
number `dv`, under recorded analysis options requesting `L` lines,
listeners fire (and `currentDepth` is eligible to advance) exactly when the
populated count at `dv` after the store equals `L`, or `dv > 1` and that
populated count equals the LENGTH of the depth-1 array (one more than the
index of its highest populated rank) — the code compares against
`bestLines.get(1).length`, not the depth-1 populated count; the clause also
requires a depth-1 entry to exist (otherwise the check throws and nothing
fires).  The spec's tie-break example is unaffected: with
`requestedLineCount = 3` and ranks 1-2 populated at depth 1, depth 5
completes when 2 ranks are populated (see the witness). -/
theorem c4_amended (st : InstanceState) (line : String) (d r : JsNum) (dv : ℚ)
    (sc : StockfishScore) (mv : List String) (opts : StockfishAnalysisOptions) (L : ℚ)
    (hp : parseInfoLine line = InfoParse.ok d r sc mv) (hd : d = some dv)
    (ho : st.analysisOptions = some opts) (hL : opts.lines = some L) :
    ((processInfo st line).2.1 ≠ [] ↔
      (L = (countSome (arrAt (processInfo st line).1 d) : ℚ) ∨
        (1 < dv ∧
          (mapLookup (processInfo st line).1.bestLines (some 1)).map List.length =
            some (countSome (arrAt (processInfo st line).1 d))))) := by
  subst hd
  have hP : processInfo st line =
      checkComplete
        { st with bestLines := (mapSet st.bestLines (some dv)
            (jsArraySet (ensureArr st (some dv)) (jsSub r (some 1)) ⟨applyTurn st.turn sc, mv⟩)) }
        (some dv)
        (jsArraySet (ensureArr st (some dv)) (jsSub r (some 1)) ⟨applyTurn st.turn sc, mv⟩) := by
    unfold processInfo
    rw [hp]
    rfl
  have hbl := checkComplete_bestLines
    { st with bestLines := (mapSet st.bestLines (some dv)
        (jsArraySet (ensureArr st (some dv)) (jsSub r (some 1)) ⟨applyTurn st.turn sc, mv⟩)) }
    (some dv)
    (jsArraySet (ensureArr st (some dv)) (jsSub r (some 1)) ⟨applyTurn st.turn sc, mv⟩)
  have harr : arrAt (processInfo st line).1 (some dv) =
      jsArraySet (ensureArr st (some dv)) (jsSub r (some 1)) ⟨applyTurn st.turn sc, mv⟩ := by
    unfold arrAt
    rw [hP, hbl]
    dsimp only
    rw [mapLookup_mapSet_self]
    rfl
  rw [harr, hP, hbl]
  exact checkComplete_ev_iff _ dv _ opts L ho hL

/-- C4, witness: the spec's tie-break scenario under the amended rule —
`requestedLineCount = 3`, ranks 1 and 2 populated at depth 1, depth 5
completes (fires listeners) once its rank 2 arrives. -/
theorem c4_witness :
    (processInfo c4Tie3 "info depth 5 multipv 2 score cp 30 pv c7c6").2.1 ≠ [] :=
  (c4_amended c4Tie3 "info depth 5 multipv 2 score cp 30 pv c7c6"
    (some 5) (some 2) 5 ⟨some (mkRat 30 100), ScoreType.exact⟩ ["c7c6"] ⟨some 3⟩ 3
    (by decide) rfl (by decide) rfl).mpr (by decide)

/-- C5: feeding any malformed or unknown line — an info line with pv
marker but a missing mandatory field or an unknown score-type token, an
info line without pv or terminal markers (known-ignorable or unrecognized
text), or any non-info non-sentinel line — leaves the entire instance
state unchanged, notifies no listener, and raises nothing (third component
`false`), in any instance state. -/
theorem c5_discard_paths_inert (st : InstanceState) (line : String)
    (h : malformedOrUnknown line) :
    processLine st line = (st, [], false) := by
  obtain ⟨hbm, hcase⟩ := h
  unfold processLine
  rw [hbm]
  rw [if_neg (by decide : ¬(false = true))]
  unfold processLineGated
  by_cases hs : st.state = EngineState.ready
  · rcases hcase with ⟨hinfo, hpv, hparse⟩ | ⟨hinfo, hpv, hm, hc⟩ | hinfo
    · rcases hparse with hpar | hpar <;>
        simp [hs, hinfo, hpv, processInfo, hpar]
    · simp [hs, hinfo, hpv, hm, hc]
    · simp [hs, hinfo]
  · simp [hs]

/-- C5, witness: an info line with a pv marker but no `multipv` field is
discarded without any state change and without raising. -/
theorem c5_witness :
    processLine readyState "info depth 3 score cp 10 pv e2e4" = (readyState, [], false) :=
  c5_discard_paths_inert readyState "info depth 3 score cp 10 pv e2e4" (by decide)

/-- C6, amended: while the instance is Ready, a line is routed to the
no-legal-moves path — broadcasting exactly `{depth: 0, lines: [],
noLegalMoves: true}` to every listener, leaving the state untouched and
bypassing the depth ladder — exactly when it starts with `info`, contains
no `pv` substring, and contains `mate 0` or `cp 0` (either marker alone
suffices). -/
theorem c6_amended (st : InstanceState) (line : String)
    (h : st.state = EngineState.ready) :
    (((processLine st line).2.1 = [noMovesEvent]) ↔
        (jsStartsWith line "info" = true ∧ jsContains line "pv" = false ∧
          (jsContains line "mate 0" = true ∨ jsContains line "cp 0" = true))) ∧
      ((jsStartsWith line "info" = true ∧ jsContains line "pv" = false ∧
          (jsContains line "mate 0" = true ∨ jsContains line "cp 0" = true)) →
        (processLine st line).1 = st ∧ (processLine st line).2.2 = false) := by
  unfold processLine
  cases hb : jsStartsWith line "bestmove" with
  | true =>
    cases hi : jsStartsWith line "info" with
    | true => exact (info_bestmove_disjoint line hb hi).elim
    | false =>
      rw [if_pos rfl]
      unfold processLineGated
      simp [hi, noMovesEvent]
  | false =>
    rw [if_neg (by decide : ¬(false = true))]
    unfold processLineGated
    rw [if_neg (by simp [h])]
    cases hi : jsStartsWith line "info" with
    | false => simp [noMovesEvent]
    | true =>
      rw [if_pos rfl]
      cases hpv : jsContains line "pv" with
      | true =>
        rw [if_pos rfl]
        constructor
        · constructor
          · intro hev
            exfalso
            rcases processInfo_events st line with h0 | ⟨dd, aa, h0⟩ <;> rw [h0] at hev
            · exact absurd hev (by simp [noMovesEvent])
            · exact absurd hev (by simp [noMovesEvent])
          · rintro ⟨_, hpv2, _⟩
            exact absurd hpv2 (by decide)
        · rintro ⟨_, hpv2, _⟩
          exact absurd hpv2 (by decide)
      | false =>
        rw [if_neg (by decide : ¬(false = true))]
        cases hterm : (jsContains line "mate 0" || jsContains line "cp 0") with
        | true =>
          rw [if_pos rfl]
          have hor := (Bool.or_eq_true _ _).mp hterm
          simp [processNoLegalMoves, noMovesEvent, hor]
        | false =>
          rw [if_neg (by decide : ¬(false = true))]
          have hand := (Bool.or_eq_false_iff).mp hterm
          simp [noMovesEvent, hand.1, hand.2]

/-- C6, witness: the checkmate line `"info depth 0 score mate 0"` meets the
amended condition and is routed to the no-legal-moves broadcast. -/
theorem c6_witness :
    (processLine readyState "info depth 0 score mate 0").2.1 = [noMovesEvent] :=
  (c6_amended readyState "info depth 0 score mate 0" rfl).1.mpr (by decide)

/-- C7, amended: `hasStarted` is `false` on a freshly constructed instance
and stays `false` until the first start command (only `startAnalysing`
sets it, to `true`); an explicit stop does NOT clear it — `stopAnalysing`
leaves `hasStarted` untouched and clears `currentAnalysisOptions` instead;
and `stopAnalysing` changes nothing at all when `hasStarted` is false and
no current configuration is recorded (which holds in every state reachable
without a start, since only `startAnalysing` sets the configuration). -/
theorem c7_amended :
    newEngineInstance.hasStarted = false ∧
      (∀ st : InstanceState, (stopAnalysing st).hasStarted = st.hasStarted) ∧
      (∀ (st : InstanceState) (o : StockfishAnalysisOptions),
        (startAnalysing st o).hasStarted = true) ∧
      (∀ st : InstanceState, st.hasStarted = false →
        st.currentAnalysisOptions = none → stopAnalysing st = st) := by
  refine ⟨rfl, ?_, ?_, ?_⟩
  · intro st
    unfold stopAnalysing stopAnalysingGuard
    split <;> rfl
  · intro st o
    rfl
  · intro st h1 h2
    unfold stopAnalysing stopAnalysingGuard
    have he : ({ st with currentAnalysisOptions := none } : InstanceState) = st := by
      cases st
      simp_all
    rw [he, h1]
    simp

/-- C7, witness: on a freshly constructed (never started) instance,
`stopAnalysing` is a genuine no-op. -/
theorem c7_witness :
    newEngineInstance.hasStarted = false ∧
      newEngineInstance.currentAnalysisOptions = none ∧
      stopAnalysing newEngineInstance = newEngineInstance :=
  ⟨rfl, rfl, c7_amended.2.2.2 newEngineInstance rfl rfl⟩

/-- C8: if the cached side to move is black, `processInfo` stores the
decoded line with its score magnitude negated (the `score.score *= -1` of
lines 841-846), so results are expressed from white's perspective; in
particular, with black to move per the FEN side field, a raw engine score
of +50 centipawns is stored (and emitted) as the Exact score -0.5. -/
theorem c8_black_perspective :
    (∀ (st : InstanceState) (line : String) (d : JsNum) (sc : StockfishScore)
        (mv : List String) (q : ℚ),
        st.turn = some Turn.black →
        parseInfoLine line = InfoParse.ok d (some 1) sc mv →
        sc.score = some q →
        mapLookup st.bestLines d = none →
        mapLookup (processInfo st line).1.bestLines d =
          some [some ⟨⟨some (-q), sc.type⟩, mv⟩]) ∧
      mapLookup (processLine (setBoardstateByFen readyState blackFen) cp50Line).1.bestLines
          (some 3) =
        some [some ⟨⟨some (-(mkRat 1 2)), ScoreType.exact⟩, ["e7e5"]⟩] := by
  constructor
  · intro st line d sc mv q ht hp hs hnone
    have hP : processInfo st line =
        checkComplete
          { st with bestLines := (mapSet st.bestLines d
              (jsArraySet (ensureArr st d) (jsSub (some 1) (some 1)) ⟨applyTurn st.turn sc, mv⟩)) }
          d
          (jsArraySet (ensureArr st d) (jsSub (some 1) (some 1)) ⟨applyTurn st.turn sc, mv⟩) := by
      unfold processInfo
      rw [hp]
      rfl
    have hea : ensureArr st d = [] := by
      rw [ensureArr, hnone]
      rfl
    have hsc : applyTurn st.turn sc = ⟨some (-q), sc.type⟩ := by
      rw [applyTurn, ht, if_pos rfl, hs]
      rfl
    have harr : jsArraySet (ensureArr st d) (jsSub (some 1) (some 1))
        (⟨applyTurn st.turn sc, mv⟩ : StockfishLine) =
        [some ⟨⟨some (-q), sc.type⟩, mv⟩] := by
      rw [hea, hsc]
      rfl
    rw [hP, checkComplete_bestLines]
    rw [show ({ st with bestLines := (mapSet st.bestLines d
        (jsArraySet (ensureArr st d) (jsSub (some 1) (some 1)) ⟨applyTurn st.turn sc, mv⟩)) }
        : InstanceState).bestLines = mapSet st.bestLines d
        (jsArraySet (ensureArr st d) (jsSub (some 1) (some 1)) ⟨applyTurn st.turn sc, mv⟩)
      from rfl]
    rw [harr, mapLookup_mapSet_self]
  · decide

/-- C8, witness: the general negation theorem applied to the concrete
black-to-move position and the raw +50 centipawn line. -/
theorem c8_witness :
    mapLookup (processInfo (setBoardstateByFen readyState blackFen) cp50Line).1.bestLines
        (some 3) =
      some [some ⟨⟨some (-(mkRat 1 2)), ScoreType.exact⟩, ["e7e5"]⟩] :=
  c8_black_perspective.1 (setBoardstateByFen readyState blackFen) cp50Line
    (some 3) ⟨some (mkRat 50 100), ScoreType.exact⟩ ["e7e5"] (mkRat 1 2)
    (by decide) (by decide) (by decide) (by decide)

/-- C9: `currentDepth` never decreases — across one processed line it is
non-decreasing and can change only when a depth-completion broadcast was
fired in that very step, and across a whole stdout data event (any
sequence of depth-completion events) it is non-decreasing.  (`reset`,
called on `startAnalysing`, starts a new session and zeroes it; that is
not a depth-completion event.) -/
theorem c9_current_depth_monotone :
    (∀ (st : InstanceState) (l : String),
        st.currentDepth ≤ (processLine st l).1.currentDepth ∧
          ((processLine st l).1.currentDepth ≠ st.currentDepth →
            (processLine st l).2.1 ≠ [])) ∧
      ∀ (st : InstanceState) (chunk : String),
        st.currentDepth ≤ (handleStdoutData st chunk).1.currentDepth := by
  constructor
  · exact fun st l => processLine_mono st l
  · intro st chunk
    unfold handleStdoutData processChunk
    exact processLines_mono _ _

/-- C9, witness: a completing info line raises `currentDepth` from 0 to 3,
and the theorem's second clause certifies a completion broadcast fired. -/
theorem c9_witness :
    (processLine readyState "info depth 3 multipv 1 score cp 50 pv e2e4").2.1 ≠ [] :=
  (c9_current_depth_monotone.1 readyState
    "info depth 3 multipv 1 score cp 50 pv e2e4").2 (by decide)

/-- C10: before any depth has completed (after `reset`, lines 605-610,
`currentDepth` is 0 and `bestLines` is empty), `getCurrentBestLines`
returns depth 0 with an undefined (`none`) `lines` field — not an empty
list — because `bestLines.get(0)` finds no entry. -/
theorem c10_reset_best_lines (st : InstanceState) :
    getCurrentBestLines (resetInstance st) = ⟨some 0, none, false⟩ := rfl

end NodeStockfish
